import Mathlib

/-!
Verification development for the depict-derivative repository.

Part 1 embeds the flat fact resolver of `src/src/dot.rs` (`filter_fact`,
`resolve`, and `main`'s dispatch on the parse result).

Part 2 embeds the dioxus shell of `src/dioxus/src/main.rs`
(`parse_highlights`, the model-processing coroutine loop, and the
highlight style generation match).
-/

namespace Dot

/-- Modelled from the spec: `Ident` (from the external `diagrams::parser`
crate) is a newtype over a name string; equality is exact text match. -/
structure Ident where
  name : String
deriving DecidableEq, Repr

/-- Modelled from the spec: `Fact` (external `diagrams::parser` crate) is
either a bare `Atom(Identifier)` reference or a named
`Fact(Identifier, ordered sequence of Fact)` with a body of child facts. -/
inductive Fact where
  | atom (i : Ident)
  | fact (i : Ident) (body : List Fact)

/-- Modelled from the spec: `Syn` (external `diagrams::parser` crate) is a
top-level parsed unit, either a `Fact` or a `Directive` (a fact-like wrapper
carrying a distinguishing keyword). -/
inductive Syn where
  | fact (f : Fact)
  | directive (keyword : Ident) (body : List Fact)

/-- Modelled from the spec: the `TryInto<&Fact>` conversion used by
`filter_fact` succeeds exactly on `Syn::Fact` items and fails on
directives. -/
def tryIntoFact : Syn → Option Fact
  | Syn.fact f => some f
  | Syn.directive _ _ => none

/-- Embedding of `filter_fact` (src/src/dot.rs lines 22-26): filter_map each
item through `TryInto<&Fact>`, keep the body of each `Fact::Fact(i2, f)` whose
head satisfies `i == i2`, and flatten the resulting bodies. -/
def filter_fact (v : List Syn) (i : Ident) : List Fact :=
  (v.filterMap (fun e =>
    match tryIntoFact e with
    | some (Fact.fact i2 f) => if i = i2 then some f else none
    | _ => none)).flatten

/-- Embedding of `resolve` (src/src/dot.rs lines 56-66): an `Atom(i)` is
delegated to `filter_fact v i`; a `Fact(_, fs)` returns its own children. -/
def resolve (v : List Syn) (r : Fact) : List Fact :=
  match r with
  | Fact.atom i => filter_fact v i
  | Fact.fact _ fs => fs

/-- Spec-side definition, following the spec's words for C1: the
contribution of a single store entry is its body when it is a fact whose head
identifier equals the queried name, and nothing otherwise. -/
def bodyIfNamed (i : Ident) (s : Syn) : List Fact :=
  match s with
  | Syn.fact (Fact.fact h b) => if h = i then b else []
  | _ => []

/-- Spec-side definition for C1: the concatenation, in store order, of the
bodies of every fact entry of the store whose head identifier equals the
queried name. -/
def specBodies (v : List Syn) (i : Ident) : List Fact :=
  (v.map (bodyIfNamed i)).flatten

/-- Whether a top-level store entry is a fact whose head identifier is `i`. -/
def isFactNamed (i : Ident) (s : Syn) : Bool :=
  match s with
  | Syn.fact (Fact.fact h _) => h = i
  | _ => false

theorem filter_fact_eq_specBodies (v : List Syn) (i : Ident) :
    filter_fact v i = specBodies v i := by
  induction v with
  | nil => rfl
  | cons s t ih =>
    cases s with
    | directive k b =>
      simp [filter_fact, specBodies, bodyIfNamed, tryIntoFact, List.filterMap_cons] at *
      exact ih
    | fact f =>
      cases f with
      | atom a =>
        simp [filter_fact, specBodies, bodyIfNamed, tryIntoFact, List.filterMap_cons] at *
        exact ih
      | fact h b =>
        by_cases hih : i = h
        · subst hih
          simp [filter_fact, specBodies, bodyIfNamed, tryIntoFact, List.filterMap_cons] at *
          exact ih
        · have hih2 : ¬ h = i := fun hc => hih hc.symm
          simp [filter_fact, specBodies, bodyIfNamed, tryIntoFact, List.filterMap_cons,
            hih, hih2] at *
          exact ih

theorem specBodies_eq_nil_of_no_match (v : List Syn) (i : Ident)
    (h : ∀ s ∈ v, isFactNamed i s = false) : specBodies v i = [] := by
  induction v with
  | nil => rfl
  | cons s t ih =>
    have hs : isFactNamed i s = false := h s (List.mem_cons_self s t)
    have ht : ∀ x ∈ t, isFactNamed i x = false := fun x hx => h x (List.mem_cons_of_mem s hx)
    have hnil : bodyIfNamed i s = [] := by
      cases s with
      | directive k b => rfl
      | fact f =>
        cases f with
        | atom a => rfl
        | fact hd b =>
          simp only [isFactNamed, decide_eq_false_iff_not] at hs
          simp [bodyIfNamed, hs]
    simp [specBodies, hnil] at *
    exact ih ht

mutual

/-- Whether a fact named `i` occurs in the given fact, at its head or nested
anywhere inside its body (used to exhibit nested occurrences). -/
def factHasFactNamed (i : Ident) : Fact → Bool
  | Fact.atom _ => false
  | Fact.fact h b => (h = i : Bool) || bodyHasFactNamed i b

/-- Whether a fact named `i` occurs anywhere in a list of facts. -/
def bodyHasFactNamed (i : Ident) : List Fact → Bool
  | [] => false
  | f :: fs => factHasFactNamed i f || bodyHasFactNamed i fs

end

/-- Whether a fact named `i` occurs anywhere in a store entry, at top level or
nested. -/
def synHasFactNamed (i : Ident) : Syn → Bool
  | Syn.fact f => factHasFactNamed i f
  | Syn.directive _ b => bodyHasFactNamed i b

/-- Whether a fact named `i` occurs anywhere in the store, at top level or
nested. -/
def storeHasFactNamed (i : Ident) (v : List Syn) : Bool :=
  v.any (synHasFactNamed i)

/-- C1: for every store and name, `filter_fact` returns exactly the
concatenation, in store order, of the bodies of every fact entry of the store
whose head identifier equals the name (directives and non-matching facts
contribute nothing, duplicates contribute all their bodies in order), and when
no fact matches the result is empty. -/
theorem C1_filter_fact_concat (v : List Syn) (i : Ident) :
    filter_fact v i = specBodies v i ∧
    ((∀ s ∈ v, isFactNamed i s = false) → filter_fact v i = []) :=
  ⟨filter_fact_eq_specBodies v i,
   fun h => (filter_fact_eq_specBodies v i).trans (specBodies_eq_nil_of_no_match v i h)⟩

/-- Witness for C1 on a concrete store holding a directive, two facts named
`a`, a bare atom and a fact named `b`: the concatenation equation holds and the
unmatched name `q` yields the empty sequence. -/
theorem C1_filter_fact_concat_witness :
    filter_fact
      [Syn.directive ⟨"draw"⟩ [Fact.atom ⟨"a"⟩],
       Syn.fact (Fact.fact ⟨"a"⟩ [Fact.atom ⟨"x"⟩]),
       Syn.fact (Fact.atom ⟨"a"⟩),
       Syn.fact (Fact.fact ⟨"b"⟩ [Fact.atom ⟨"y"⟩]),
       Syn.fact (Fact.fact ⟨"a"⟩ [Fact.atom ⟨"z"⟩])] ⟨"q"⟩ = [] :=
  (C1_filter_fact_concat
      [Syn.directive ⟨"draw"⟩ [Fact.atom ⟨"a"⟩],
       Syn.fact (Fact.fact ⟨"a"⟩ [Fact.atom ⟨"x"⟩]),
       Syn.fact (Fact.atom ⟨"a"⟩),
       Syn.fact (Fact.fact ⟨"b"⟩ [Fact.atom ⟨"y"⟩]),
       Syn.fact (Fact.fact ⟨"a"⟩ [Fact.atom ⟨"z"⟩])] ⟨"q"⟩).2 (by decide)

/-- C2: `resolve` on an atom delegates to `filter_fact`; on a fact it returns
the fact's own children, independently of the store argument. -/
theorem C2_resolve_cases :
    (∀ (v : List Syn) (n : Ident), resolve v (Fact.atom n) = filter_fact v n) ∧
    (∀ (v w : List Syn) (i : Ident) (fs : List Fact),
      resolve v (Fact.fact i fs) = fs ∧
      resolve w (Fact.fact i fs) = resolve v (Fact.fact i fs)) :=
  ⟨fun _ _ => rfl, fun _ _ _ _ => ⟨rfl, rfl⟩⟩

/-- C3 counterexample: in the store `[a [ b [ c ] ]]` a fact named `b` occurs
nested inside the body of `a`, yet `filter_fact` at name `b` returns the empty
sequence instead of the nested fact's body, so nested facts are not found. -/
theorem C3_counterexample :
    filter_fact [Syn.fact (Fact.fact ⟨"a"⟩ [Fact.fact ⟨"b"⟩ [Fact.atom ⟨"c"⟩]])] ⟨"b"⟩
      = [] ∧
    storeHasFactNamed ⟨"b"⟩
      [Syn.fact (Fact.fact ⟨"a"⟩ [Fact.fact ⟨"b"⟩ [Fact.atom ⟨"c"⟩]])] = true :=
  ⟨rfl, by decide⟩

/-- C3 amended: `filter_fact` consults only the top-level entries of the
sequence it is given — a name carried only by facts nested inside other facts'
bodies yields the empty result, so atom resolution is flat over the top level
of the store, not over all nesting depths. -/
theorem C3_amended_top_level_only (v : List Syn) (i : Ident)
    (h : ∀ s ∈ v, isFactNamed i s = false) : filter_fact v i = [] :=
  (filter_fact_eq_specBodies v i).trans (specBodies_eq_nil_of_no_match v i h)

/-- Witness for the amended C3 at the counterexample store: `b` heads no
top-level entry, so resolution finds nothing even though `b` occurs nested. -/
theorem C3_amended_top_level_only_witness :
    filter_fact [Syn.fact (Fact.fact ⟨"a"⟩ [Fact.fact ⟨"b"⟩ [Fact.atom ⟨"c"⟩]])] ⟨"b"⟩
      = [] :=
  C3_amended_top_level_only
    [Syn.fact (Fact.fact ⟨"a"⟩ [Fact.fact ⟨"b"⟩ [Fact.atom ⟨"c"⟩]])] ⟨"b"⟩ (by decide)

/-- C4: the flat resolver is a pure function of the store and the name: two
calls of `resolve` (equivalently `filter_fact`) on equal stores and equal atom
names yield identical output sequences. -/
theorem C4_resolve_deterministic (v w : List Syn) (n m : Ident)
    (hv : v = w) (hn : n = m) :
    resolve v (Fact.atom n) = resolve w (Fact.atom m) ∧
    filter_fact v n = filter_fact w m := by
  subst hv; subst hn; exact ⟨rfl, rfl⟩

/-- Witness for C4 at a concrete one-entry store and name `a`. -/
theorem C4_resolve_deterministic_witness :
    resolve [Syn.fact (Fact.fact ⟨"a"⟩ [Fact.atom ⟨"x"⟩])] (Fact.atom ⟨"a"⟩)
      = resolve [Syn.fact (Fact.fact ⟨"a"⟩ [Fact.atom ⟨"x"⟩])] (Fact.atom ⟨"a"⟩) ∧
    filter_fact [Syn.fact (Fact.fact ⟨"a"⟩ [Fact.atom ⟨"x"⟩])] ⟨"a"⟩
      = filter_fact [Syn.fact (Fact.fact ⟨"a"⟩ [Fact.atom ⟨"x"⟩])] ⟨"a"⟩ :=
  C4_resolve_deterministic
    [Syn.fact (Fact.fact ⟨"a"⟩ [Fact.atom ⟨"x"⟩])]
    [Syn.fact (Fact.fact ⟨"a"⟩ [Fact.atom ⟨"x"⟩])] ⟨"a"⟩ ⟨"a"⟩ rfl rfl

/-- The three variants of `nom::Err` (the error type of the external `nom`
library used by `parse`): a recoverable `Error`, an unrecoverable `Failure`,
and `Incomplete`. -/
inductive NomErr (E : Type) where
  | error (e : E)
  | failure (e : E)
  | incomplete
deriving DecidableEq, Repr

/-- The observable outcome of one iteration of `main`'s per-file loop:
`rendered v` when `render(v)` is invoked, `exit1 e` when the friendly
diagnostic for `e` is printed and the process exits with code 1, and `exit2`
when the raw result is printed and the process exits with code 2. -/
inductive MainOutcome (E A : Type) where
  | rendered (v : A)
  | exit1 (e : E)
  | exit2
deriving DecidableEq, Repr

/-- Embedding of the match in `main` (src/src/dot.rs lines 126-138) on the
result of `parse`: `Err(nom::Err::Error(v2))` prints a converted diagnostic
and exits 1; `Ok(("", v2))` renders; every other result (leftover input or any
other error variant) prints the raw result and exits 2. -/
def mainDispatch {E A : Type} (r : Except (NomErr E) (String × A)) :
    MainOutcome E A :=
  match r with
  | Except.error (NomErr.error e) => MainOutcome.exit1 e
  | Except.ok (rest, v) =>
    if rest = "" then MainOutcome.rendered v else MainOutcome.exit2
  | Except.error (NomErr.failure _) => MainOutcome.exit2
  | Except.error NomErr.incomplete => MainOutcome.exit2

/-- C10 counterexample: a parse error of the `nom::Err::Failure` variant does
not exit with code 1 carrying a diagnostic — it falls into the wildcard arm
and exits with code 2. -/
theorem C10_counterexample :
    mainDispatch (Except.error (NomErr.failure ()) : Except (NomErr Unit) (String × Unit))
      = MainOutcome.exit2 ∧
    mainDispatch (Except.error (NomErr.failure ()) : Except (NomErr Unit) (String × Unit))
      ≠ MainOutcome.exit1 () :=
  ⟨rfl, by decide⟩

/-- C10 amended: `main` renders only on a successful parse that consumed the
whole input; a recoverable parse error (`nom::Err::Error`) prints a diagnostic
and exits 1; every other outcome — a successful parse with leftover input, or
a `Failure`/`Incomplete` error — prints the raw result and exits 2. -/
theorem C10_amended_dispatch {E A : Type} (e : E) (v : A) (rest : String)
    (hrest : rest ≠ "") :
    mainDispatch (Except.error (NomErr.error e) : Except (NomErr E) (String × A))
      = MainOutcome.exit1 e ∧
    mainDispatch (Except.ok (("", v) : String × A) : Except (NomErr E) (String × A))
      = MainOutcome.rendered v ∧
    mainDispatch (Except.ok ((rest, v) : String × A) : Except (NomErr E) (String × A))
      = MainOutcome.exit2 ∧
    mainDispatch (Except.error (NomErr.failure e) : Except (NomErr E) (String × A))
      = MainOutcome.exit2 ∧
    mainDispatch (Except.error (NomErr.incomplete) : Except (NomErr E) (String × A))
      = MainOutcome.exit2 ∧
    (∀ (r : Except (NomErr E) (String × A)) (w : A),
      mainDispatch r = MainOutcome.rendered w → r = Except.ok ("", w)) := by
  refine ⟨rfl, by simp [mainDispatch], ?_, rfl, rfl, ?_⟩
  · simp [mainDispatch, hrest]
  · intro r w hr
    match r with
    | Except.error (NomErr.error e) => simp [mainDispatch] at hr
    | Except.error (NomErr.failure e) => simp [mainDispatch] at hr
    | Except.error NomErr.incomplete => simp [mainDispatch] at hr
    | Except.ok (rest2, u) =>
      by_cases h0 : rest2 = ""
      · have hu : u = w := by simpa [mainDispatch, h0] using hr
        simp [h0, hu]
      · simp [mainDispatch, h0] at hr

/-- Witness for the amended C10 at concrete inputs over `E = A = Unit` with
leftover input `"x"`. -/
theorem C10_amended_dispatch_witness :
    mainDispatch (Except.error (NomErr.error ()) : Except (NomErr Unit) (String × Unit))
      = MainOutcome.exit1 () ∧
    mainDispatch (Except.ok (("", ()) : String × Unit) : Except (NomErr Unit) (String × Unit))
      = MainOutcome.rendered () ∧
    mainDispatch (Except.ok (("x", ()) : String × Unit) : Except (NomErr Unit) (String × Unit))
      = MainOutcome.exit2 ∧
    mainDispatch (Except.error (NomErr.failure ()) : Except (NomErr Unit) (String × Unit))
      = MainOutcome.exit2 ∧
    mainDispatch (Except.error NomErr.incomplete : Except (NomErr Unit) (String × Unit))
      = MainOutcome.exit2 ∧
    (∀ (r : Except (NomErr Unit) (String × Unit)) (w : Unit),
      mainDispatch r = MainOutcome.rendered w → r = Except.ok ("", w)) :=
  C10_amended_dispatch () () "x" (by decide)

end Dot

namespace Shell

/-- The Unicode `White_Space` code points, the set recognised by Rust's
`char::is_whitespace`, which underlies `str::trim`. -/
def rustWhitespaceChars : List Char :=
  ['\x09', '\x0a', '\x0b', '\x0c', '\x0d', ' ',
   '\u0085', ' ', ' ',
   ' ', ' ', ' ', ' ', ' ', ' ', ' ',
   ' ', ' ', ' ', ' ',
   ' ', ' ', ' ', ' ', '　']

/-- Rust `char::is_whitespace`. -/
def isRustWhitespace (c : Char) : Bool :=
  rustWhitespaceChars.contains c

/-- Rust `str::trim` on the character sequence of a string: drop whitespace
from both ends. -/
def trimChars (s : List Char) : List Char :=
  ((s.dropWhile isRustWhitespace).reverse.dropWhile isRustWhitespace).reverse

/-- The test `data.trim().is_empty()` used by `parse_highlights` (line 123)
and by the model loop (line 186): the buffer trims to nothing. -/
def isBlank (s : String) : Bool :=
  (trimChars s.data).isEmpty

mutual

/-- Modelled from the spec: the nested term tree `Val` of the external
`depict::graph_drawing::eval` module — a `Process` with optional name, label
and composite body, a `Chain` with optional name and a path of values, or a
bare atom reference. -/
inductive Val where
  | process (name : Option String) (label : Option String) (body : Option Body)
  | chain (name : Option String) (path : List Val)
  | atom (name : String)

/-- Modelled from the spec: the composite body `Body::All(ordered sequence of
Val)` used as a `Process` body. -/
inductive Body where
  | all (vals : List Val)

end

/-- Modelled from the spec: `Val::default()`, the default empty `Process`
returned for blank input. -/
def Val.defaultVal : Val :=
  Val.process none none none

/-- A byte span reported by the external `logos` lexer. -/
structure Span where
  lo : Nat
  hi : Nat
deriving DecidableEq, Repr

/-- One lexed token as observed by the `parse_highlights` loop: the lexer's
span and source slice at that token (the token's kind is irrelevant to the
claims and is abstracted into the slice). -/
structure Tok where
  span : Span
  slice : String
deriving DecidableEq, Repr

/-- The lexer's output for a buffer: the token sequence, plus the span and
slice the lexer reports once the token stream is exhausted (used by the
`end_of_input` error). -/
structure LexOut where
  toks : List Tok
  finSpan : Span
  finSlice : String

/-- The error kind constructed by `parse_highlights`:
`Kind::PomeloError{span, text}` carrying the failure span and offending text
slice. -/
inductive EKind where
  | pomeloError (span : Span) (text : String)
deriving DecidableEq, Repr

/-- Modelled from the spec: the external pomelo-generated `Parser` object of
`depict::parser` — it accepts tokens one at a time, reporting acceptance or
rejection per token, and on `end_of_input` either yields the completed items
or fails. -/
structure ParserObj (σ ι : Type) where
  init : σ
  step : σ → Tok → Option σ
  endOfInput : σ → Option (List ι)

/-- The token-feeding `while` loop of `parse_highlights` (lines 134-140): feed
each token to the parser; on the first rejected token, stop with a
`PomeloError` carrying that token's span and slice. -/
def parseLoop {σ ι : Type} (p : ParserObj σ ι) : σ → List Tok → Except EKind σ
  | st, [] => Except.ok st
  | st, t :: ts =>
    match p.step st t with
    | some st2 => parseLoop p st2 ts
    | none => Except.error (EKind.pomeloError t.span t.slice)

/-- Embedding of `parse_highlights` (src/dioxus/src/main.rs lines 116-163),
parametrised over the external lexer `lexr`, parser object `p` and the
composite `eval`/`index`/`resolve` step `ev`: a blank buffer short-circuits to
`Ok(Val::default())`; otherwise the tokens are fed to the parser, a rejected
token or a failed `end_of_input` produces a `PomeloError` with the lexer's
span and slice at the failure, and success evaluates the items. -/
def parse_highlights {σ ι : Type} (lexr : String → LexOut) (p : ParserObj σ ι)
    (ev : List ι → Val) (data : String) : Except EKind Val :=
  if isBlank data then Except.ok Val.defaultVal
  else
    match parseLoop p p.init (lexr data).toks with
    | Except.error e => Except.error e
    | Except.ok st =>
      match p.endOfInput st with
      | none => Except.error (EKind.pomeloError (lexr data).finSpan (lexr data).finSlice)
      | some items => Except.ok (ev items)

/-- The joint outcome of `catch_unwind(|| draw(model))` (lines 189-191): the
drawing succeeded, `draw` returned an error, or `draw` panicked and the panic
was caught at the cycle boundary as a value. The external `draw` is modelled
as an arbitrary function into this type. -/
inductive DrawRes (D E : Type) where
  | success (d : D)
  | failure (e : E)
  | panicked
deriving DecidableEq, Repr

/-- The `nodes` computation of the model loop (lines 186-192): a blank model
short-circuits to the default drawing without calling `draw`; otherwise the
caught outcome of `draw model` is used. -/
def modelNodes {D E : Type} (dflt : D) (draw : String → DrawRes D E)
    (model : String) : DrawRes D E :=
  if isBlank model then DrawRes.success dflt
  else draw model

/-- The state carried across iterations of the model-processing coroutine:
the last successfully processed buffer (`prev_model`, line 182) and the
drawing currently displayed (held by the drawing coroutine, updated only when
a new drawing is sent, lines 170-177). -/
structure LoopState (D : Type) where
  prev_model : Option String
  displayed : D
deriving DecidableEq, Repr

/-- The observable result of one loop iteration: the new state, the drawing
sent to the drawing coroutine (if any), and whether the edit was processed at
all (i.e., not skipped by the de-duplication check). -/
structure StepOut (D : Type) where
  state : LoopState D
  sent : Option D
  processed : Bool
deriving DecidableEq, Repr

/-- Embedding of one iteration of the model-processing loop (lines 183-211):
an edit equal to `prev_model` is skipped entirely; otherwise `nodes` is
computed, and on success `prev_model` is recorded and the drawing is sent,
while on a drawing error or a caught panic nothing is sent and the state is
left unchanged. Totality of this function is the embedded form of the panic
being caught rather than crashing the host. -/
def model_step {D E : Type} (dflt : D) (draw : String → DrawRes D E)
    (st : LoopState D) (model : String) : StepOut D :=
  if some model = st.prev_model then ⟨st, none, false⟩
  else
    match modelNodes dflt draw model with
    | DrawRes.success d => ⟨⟨some model, d⟩, some d, true⟩
    | DrawRes.failure _ => ⟨st, none, true⟩
    | DrawRes.panicked => ⟨st, none, true⟩

/-- The model-processing loop itself: fold `model_step` over the arriving
edits. -/
def model_loop {D E : Type} (dflt : D) (draw : String → DrawRes D E) :
    LoopState D → List String → LoopState D
  | st, [] => st
  | st, m :: ms => model_loop dflt draw (model_step dflt draw st m).state ms

/-- The style rules emitted by the highlight match (lines 238-310), one
constructor per `format!` template: `box p` for the named/labelled process
rule pair, `arrowName c` for a named chain's arrow rule, and `arrowEdge p q`
for the per-window arrow rule of an anonymous chain. -/
inductive Style where
  | box (name : String)
  | arrowName (name : String)
  | arrowEdge (p : String) (q : String)
deriving DecidableEq, Repr

/-- The key under which a value can be styled, mirroring the or-pattern
`Val::Process { name: Some(pname), .. } | Val::Process { label: Some(pname), .. }`:
a process's name if present, else its label if present; anything else has no
key. -/
def procKey : Val → Option String
  | Val.process (some p) _ _ => some p
  | Val.process none (some l) _ => some l
  | _ => none

/-- Rust's `slice::windows(2)`: the list of adjacent pairs. -/
def windows2 : List Val → List (Val × Val)
  | x :: y :: rest => (x, y) :: windows2 (y :: rest)
  | _ => []

/-- The style contributed by one window of an anonymous chain's path
(lines 264-288): an arrow rule when both endpoints are keyed processes, and
nothing otherwise. -/
def edgeStyle (pq : Val × Val) : Option Style :=
  match procKey pq.1, procKey pq.2 with
  | some p, some q => some (Style.arrowEdge p q)
  | _, _ => none

/-- The style rules contributed by one element of the highlight body
(lines 243-295): a named or labelled process yields its box rule, a named
chain yields its arrow rule, an anonymous chain yields one arrow rule per
window of adjacent keyed processes, and everything else yields nothing. -/
def styleOf : Val → List Style
  | Val.process (some p) _ _ => [Style.box p]
  | Val.process none (some l) _ => [Style.box l]
  | Val.chain (some c) _ => [Style.arrowName c]
  | Val.chain none path => (windows2 path).filterMap edgeStyle
  | _ => []

/-- The shell's rendering of the highlight result (lines 238-310): a parsed
root process with an `All` body yields the style rules of its elements, an
error is rendered as a diagnostic element, and anything else renders
nothing. -/
inductive HView where
  | styles (rules : List Style)
  | diagnostic (e : EKind)
  | emptyView

/-- The match on `parse_highlights(..)` in `app` (lines 238-310). -/
def highlightView (r : Except EKind Val) : HView :=
  match r with
  | Except.ok (Val.process _ _ (some (Body.all bs))) =>
    HView.styles (bs.map styleOf).flatten
  | Except.error e => HView.diagnostic e
  | _ => HView.emptyView

theorem parseLoop_error_position {σ ι : Type} (p : ParserObj σ ι) :
    ∀ (ts : List Tok) (st : σ) (e : EKind), parseLoop p st ts = Except.error e →
      ∃ k, ∃ h : k < ts.length,
        e = EKind.pomeloError (ts.get ⟨k, h⟩).span (ts.get ⟨k, h⟩).slice := by
  intro ts
  induction ts with
  | nil =>
    intro st e h
    simp [parseLoop] at h
  | cons t ts2 ih =>
    intro st e h
    unfold parseLoop at h
    cases hs : p.step st t with
    | some st2 =>
      rw [hs] at h
      obtain ⟨k, hk, he⟩ := ih st2 e h
      exact ⟨k + 1, Nat.succ_lt_succ hk, he⟩
    | none =>
      rw [hs] at h
      injection h with h2
      exact ⟨0, Nat.succ_pos _, h2.symm⟩

/-- C5: for every lexer, parser, evaluator and draw function, a buffer whose
trimmed content is empty makes `parse_highlights` return `Ok(Val::default())`
(independently of the lexer and parser, which are therefore not consulted),
and makes the model path produce the default drawing successfully
(independently of `draw`) — blank input is never an error. -/
theorem C5_blank_input_defaults {σ ι D E : Type}
    (lexr : String → LexOut) (p : ParserObj σ ι) (ev : List ι → Val)
    (dflt : D) (draw : String → DrawRes D E) (data model : String)
    (hdata : isBlank data = true) (hmodel : isBlank model = true) :
    parse_highlights lexr p ev data = Except.ok Val.defaultVal ∧
    modelNodes dflt draw model = DrawRes.success dflt := by
  constructor
  · simp [parse_highlights, hdata]
  · simp [modelNodes, hmodel]

/-- Witness for C5 at an all-whitespace buffer, a lexer and parser that would
fail on anything, and a draw function that would panic. -/
theorem C5_blank_input_defaults_witness :
    parse_highlights (fun _ => LexOut.mk [] ⟨0, 0⟩ "")
      (ParserObj.mk () (fun _ _ => (none : Option Unit)) (fun _ => (none : Option (List Unit))))
      (fun _ => Val.defaultVal) " \n\t " = Except.ok Val.defaultVal ∧
    modelNodes (0 : Nat) (fun _ => (DrawRes.panicked : DrawRes Nat Unit)) " \n\t "
      = DrawRes.success 0 :=
  C5_blank_input_defaults (fun _ => LexOut.mk [] ⟨0, 0⟩ "")
    (ParserObj.mk () (fun _ _ => none) (fun _ => none))
    (fun _ => Val.defaultVal) 0 (fun _ => DrawRes.panicked) " \n\t " " \n\t "
    (by decide) (by decide)

/-- C6: when the cycle's `nodes` outcome is a caught panic or a drawing
error, the loop state is left unchanged — the recorded previous model and the
displayed drawing are untouched and no drawing is sent; the totality of
`model_step` embeds the panic being caught at the cycle boundary rather than
crashing the host. -/
theorem C6_panic_no_update {D E : Type} (dflt : D) (draw : String → DrawRes D E)
    (st : LoopState D) (model : String)
    (h : modelNodes dflt draw model = DrawRes.panicked ∨
         ∃ e, modelNodes dflt draw model = DrawRes.failure e) :
    (model_step dflt draw st model).state = st ∧
    (model_step dflt draw st model).sent = none := by
  unfold model_step
  by_cases hm : some model = st.prev_model
  · simp [hm]
  · rcases h with hp | ⟨e, he⟩
    · simp [hm, hp]
    · simp [hm, he]

/-- Witness for C6: a draw function that always panics, on a fresh non-blank
model, leaves the state and the displayed drawing unchanged. -/
theorem C6_panic_no_update_witness :
    (model_step (0 : Nat) (fun _ => (DrawRes.panicked : DrawRes Nat Unit))
      (LoopState.mk (some "p") 7) "x").state = LoopState.mk (some "p") 7 ∧
    (model_step (0 : Nat) (fun _ => (DrawRes.panicked : DrawRes Nat Unit))
      (LoopState.mk (some "p") 7) "x").sent = none :=
  C6_panic_no_update 0 (fun _ => DrawRes.panicked) (LoopState.mk (some "p") 7) "x"
    (Or.inl rfl)

/-- C7: in the model-processing loop, an edit equal to the recorded previous
buffer is skipped — the state is unchanged, nothing is sent and nothing is
processed — while every edit distinct from the previous buffer is
processed. -/
theorem C7_dedup_skip {D E : Type} (dflt : D) (draw : String → DrawRes D E)
    (st : LoopState D) (model : String) :
    (some model = st.prev_model →
      model_step dflt draw st model = StepOut.mk st none false) ∧
    (some model ≠ st.prev_model →
      (model_step dflt draw st model).processed = true) := by
  constructor
  · intro hm
    simp [model_step, hm]
  · intro hm
    unfold model_step
    rw [if_neg hm]
    cases hn : modelNodes dflt draw model <;> simp

/-- Witness for C7: with previous buffer `"a"`, the edit `"a"` is skipped
outright and the edit `"b"` is processed. -/
theorem C7_dedup_skip_witness :
    model_step (0 : Nat) (fun _ => (DrawRes.panicked : DrawRes Nat Unit))
      (LoopState.mk (some "a") 0) "a" = StepOut.mk (LoopState.mk (some "a") 0) none false ∧
    (model_step (0 : Nat) (fun _ => (DrawRes.panicked : DrawRes Nat Unit))
      (LoopState.mk (some "a") 0) "b").processed = true :=
  ⟨(C7_dedup_skip 0 (fun _ => DrawRes.panicked) (LoopState.mk (some "a") 0) "a").1 rfl,
   (C7_dedup_skip 0 (fun _ => DrawRes.panicked) (LoopState.mk (some "a") 0) "b").2
     (by decide)⟩

/-- C8: whenever `parse_highlights` fails, the error is a `PomeloError`
carrying the span and offending slice either of the token at which the parser
rejected or of the lexer's end-of-input position when completion failed, and
the shell renders any such error as a diagnostic rather than crashing. -/
theorem C8_parse_error_diagnostics {σ ι : Type} (lexr : String → LexOut)
    (p : ParserObj σ ι) (ev : List ι → Val) (data : String) (e : EKind)
    (herr : parse_highlights lexr p ev data = Except.error e) :
    ((∃ k, ∃ h : k < (lexr data).toks.length,
        e = EKind.pomeloError ((lexr data).toks.get ⟨k, h⟩).span
              ((lexr data).toks.get ⟨k, h⟩).slice) ∨
      e = EKind.pomeloError (lexr data).finSpan (lexr data).finSlice) ∧
    highlightView (Except.error e) = HView.diagnostic e := by
  refine ⟨?_, rfl⟩
  unfold parse_highlights at herr
  by_cases hb : isBlank data = true
  · simp [hb] at herr
  · rw [if_neg hb] at herr
    cases hl : parseLoop p p.init (lexr data).toks with
    | error e2 =>
      rw [hl] at herr
      injection herr with h2
      subst h2
      exact Or.inl (parseLoop_error_position p (lexr data).toks p.init e2 hl)
    | ok st =>
      rw [hl] at herr
      dsimp only at herr
      cases he : p.endOfInput st with
      | none =>
        rw [he] at herr
        dsimp only at herr
        injection herr with h2
        exact Or.inr h2.symm
      | some items =>
        rw [he] at herr
        dsimp only at herr
        exact Except.noConfusion herr

/-- Witness for C8: a parser that rejects its first token produces the
`PomeloError` carrying that token's span and slice, and the shell shows it as
a diagnostic. -/
theorem C8_parse_error_diagnostics_witness :
    ((∃ k, ∃ h : k < ((fun _ => LexOut.mk [Tok.mk ⟨0, 1⟩ "t"] ⟨1, 1⟩ "")
          ("t" : String)).toks.length,
        EKind.pomeloError ⟨0, 1⟩ "t"
          = EKind.pomeloError
              (((fun _ => LexOut.mk [Tok.mk ⟨0, 1⟩ "t"] ⟨1, 1⟩ "") ("t" : String)).toks.get
                ⟨k, h⟩).span
              (((fun _ => LexOut.mk [Tok.mk ⟨0, 1⟩ "t"] ⟨1, 1⟩ "") ("t" : String)).toks.get
                ⟨k, h⟩).slice) ∨
      EKind.pomeloError ⟨0, 1⟩ "t"
        = EKind.pomeloError
            ((fun _ => LexOut.mk [Tok.mk ⟨0, 1⟩ "t"] ⟨1, 1⟩ "") ("t" : String)).finSpan
            ((fun _ => LexOut.mk [Tok.mk ⟨0, 1⟩ "t"] ⟨1, 1⟩ "") ("t" : String)).finSlice) ∧
    highlightView (Except.error (EKind.pomeloError ⟨0, 1⟩ "t"))
      = HView.diagnostic (EKind.pomeloError ⟨0, 1⟩ "t") :=
  C8_parse_error_diagnostics (fun _ => LexOut.mk [Tok.mk ⟨0, 1⟩ "t"] ⟨1, 1⟩ "")
    (ParserObj.mk () (fun _ _ => (none : Option Unit)) (fun _ => some ([] : List Unit)))
    (fun _ => Val.defaultVal) "t" (EKind.pomeloError ⟨0, 1⟩ "t") rfl

/-- C9: an anonymous process (no name, no label) generates no style rule;
a process carrying a name (or, failing that, a label) generates exactly its
box rule; a named chain generates exactly its arrow rule; a bare atom
generates nothing; a chain path shorter than two elements generates nothing;
and a window of an anonymous chain contributes an arrow rule only when both
endpoints are keyed, so a path none of whose windows has two keyed endpoints
generates nothing. -/
theorem C9_style_generation :
    (∀ b, styleOf (Val.process none none b) = []) ∧
    (∀ p l b, styleOf (Val.process (some p) l b) = [Style.box p]) ∧
    (∀ l b, styleOf (Val.process none (some l) b) = [Style.box l]) ∧
    (∀ c path, styleOf (Val.chain (some c) path) = [Style.arrowName c]) ∧
    (∀ s, styleOf (Val.atom s) = []) ∧
    (∀ path, path.length < 2 → styleOf (Val.chain none path) = []) ∧
    (∀ path, (∀ pq ∈ windows2 path, procKey pq.1 = none ∨ procKey pq.2 = none) →
      styleOf (Val.chain none path) = []) := by
  refine ⟨fun b => rfl, fun p l b => rfl, fun l b => rfl, fun c path => rfl,
    fun s => rfl, ?_, ?_⟩
  · intro path h
    cases path with
    | nil => rfl
    | cons x r =>
      cases r with
      | nil => rfl
      | cons y r2 =>
        simp only [List.length_cons] at h
        omega
  · intro path h
    show (windows2 path).filterMap edgeStyle = []
    rw [List.filterMap_eq_nil_iff]
    intro pq hpq
    rcases h pq hpq with h1 | h1
    · simp [edgeStyle, h1]
    · cases hk : procKey pq.1 <;> simp [edgeStyle, hk, h1]

/-- Witness for C9 on concrete values: an anonymous process, a named process,
a labelled process, a named chain, an atom, a one-element path and a
two-element path of unkeyed endpoints. -/
theorem C9_style_generation_witness :
    styleOf (Val.process none none none) = [] ∧
    styleOf (Val.process (some "p") (some "l") none) = [Style.box "p"] ∧
    styleOf (Val.process none (some "l") none) = [Style.box "l"] ∧
    styleOf (Val.chain (some "c") []) = [Style.arrowName "c"] ∧
    styleOf (Val.atom "a") = [] ∧
    styleOf (Val.chain none [Val.atom "x"]) = [] ∧
    styleOf (Val.chain none [Val.atom "x", Val.atom "y"]) = [] :=
  ⟨C9_style_generation.1 none,
   C9_style_generation.2.1 "p" (some "l") none,
   C9_style_generation.2.2.1 "l" none,
   C9_style_generation.2.2.2.1 "c" [],
   C9_style_generation.2.2.2.2.1 "a",
   C9_style_generation.2.2.2.2.2.1 [Val.atom "x"] (by decide),
   C9_style_generation.2.2.2.2.2.2 [Val.atom "x", Val.atom "y"] (by decide)⟩

end Shell
